import Mathlib

/-!
Verification of `agents_api/models/session/patch_session.py`: the partial-update
compiler for the versioned `sessions` relation, its response projection and its
exception mapping. Python dicts are embedded as insertion-ordered association
lists with distinct keys; Python/JSON values as the inductive `Val`.
-/

set_option autoImplicit false

/-- Python/JSON values appearing in payloads, bound parameters and result rows. -/
inductive Val where
  | vnull
  | vint (n : Int)
  | vstr (s : String)
  | vlist (xs : List Val)
  | vobj (m : List (String × Val))

/-- Test for the Python `None` value (`v is None`). -/
def Val.isNull : Val → Bool
  | Val.vnull => true
  | _ => false

/-- A Python dict: an insertion-ordered association list (keys distinct in any
dict produced by Python; stated as a hypothesis where a proof needs it). -/
abbrev PyDict := List (String × Val)

/-- Keys of a dict, in insertion order (Python `d.keys()`). -/
def dictKeys (d : PyDict) : List String := d.map Prod.fst

/-- Python dict lookup `d[k]` / `d.get(k)`: the value of the first entry whose
key is `k`, if any. -/
def alookup (k : String) : PyDict → Option Val
  | [] => none
  | p :: rest => if p.1 = k then some p.2 else alookup k rest

/-- The fixed `_fields` list of the source module. -/
def _fields : List String :=
  ["situation", "summary", "created_at", "session_id", "developer_id"]

/-- Step `metadata = update_data.pop("metadata", \x7b\x7d) or \x7b\x7d`: the incoming
metadata map, defaulting to the empty map when the field is absent, null, or empty
(the typed request constrains `metadata` to a JSON object or null). -/
def metadataOf (d : PyDict) : List (String × Val) :=
  match alookup ("metadata") d with
  | some (Val.vobj m) => m
  | _ => []

/-- The dict after `update_data.pop("metadata", ...)`: every `metadata` entry removed. -/
def update_data_after_pop (d : PyDict) : PyDict :=
  d.filter (fun p => decide (p.1 ≠ "metadata"))

/-- The dict comprehension `\x7bk: v for k, v in update_data.items() if v is not None\x7d`
applied after the metadata pop: the supplied non-null fields. -/
def update_data_non_null (d : PyDict) : PyDict :=
  (update_data_after_pop d).filter (fun p => !p.2.isNull)

/-- Modelled from the spec: `cozo_process_mutate_data` (from
`agents_api.common.utils.cozo`, absent from src/) binds the supplied fields as a
parameterized input relation — it returns the comma-joined column-name string and
the single row of the corresponding values, matching the subsequent
`session_update_cols.split(",")` in `patch_session`. -/
def cozo_process_mutate_data (d : PyDict) : String × List (List Val) :=
  (String.intercalate (",") (dictKeys d), [d.map Prod.snd])

/-- Step `session_update_cols.split(",")` where `session_update_cols` was produced
by joining `parts` with `","` and each part is a single column name containing no
comma: splitting returns `parts` again, except that Python's `"".split(",")`
is `[""]`, so an empty join yields the one-element list of the empty string.
The join-split round trip is modelled at the list level. -/
def py_split_join (parts : List String) : List String :=
  if parts = [] then [""] else parts

/-- Column string bound into the `input[...]` relation of the compiled query. -/
def session_update_cols (d : PyDict) : String :=
  (cozo_process_mutate_data (update_data_non_null d)).1

/-- Value rows bound as `$session_update_vals`. -/
def session_update_vals (d : PyDict) : List (List Val) :=
  (cozo_process_mutate_data (update_data_non_null d)).2

/-- Step `session_update_cols_lst = session_update_cols.split(",")`. -/
def session_update_cols_lst (d : PyDict) : List String :=
  py_split_join (dictKeys (update_data_non_null d))

/-- Step `all_fields_lst = list(set(session_update_cols_lst).union(set(_fields)))`.
Python set enumeration order is unspecified (hash based); we fix the
first-occurrence order — every verified property depends only on membership. -/
def all_fields_lst (d : PyDict) : List String :=
  (session_update_cols_lst d ++ _fields).dedup

/-- Column string of the `?[...]` head and the `:put` statement. -/
def all_fields (d : PyDict) : String :=
  String.intercalate (", ") (all_fields_lst d)

/-- Step `rest_fields = list(set(all_fields_lst) - set([k for k, v in
update_data.items() if v is not None]))`: the carried-forward columns. -/
def rest_fields_lst (d : PyDict) : List String :=
  ((all_fields_lst d).filter
    (fun x => decide (x ∉ dictKeys (update_data_non_null d)))).dedup

/-- Column string of the carried-forward fields read from `*sessions`. -/
def rest_fields (d : PyDict) : String :=
  String.intercalate (", ") (rest_fields_lst d)

/-- Full column list of the emitted `:put sessions` statement:
`\x7b\x7ball_fields\x7d\x7d, metadata, updated_at`. -/
def put_cols_lst (d : PyDict) : List String :=
  all_fields_lst d ++ ["metadata", "updated_at"]

/-- Full schema column set of a stored session row (the fixed fields plus the
merged metadata and the validity timestamp). -/
def schema_put_fields : List String := _fields ++ ["metadata", "updated_at"]

/-- Lines of the compiled datalog mutation statement (the `update_query`
f-string of the source, split at its newlines). -/
def update_query_lines (d : PyDict) : List String :=
  [ ""
  , "        input[" ++ session_update_cols d ++ "] <- $session_update_vals"
  , "        ids[session_id, developer_id] <- [[to_uuid($session_id), to_uuid($developer_id)]]"
  , "        "
  , "        ?[" ++ all_fields d ++ ", metadata, updated_at] :="
  , "            input[" ++ session_update_cols d ++ "],"
  , "            ids[session_id, developer_id],"
  , "            *sessions\x7b"
  , "                " ++ rest_fields d ++ ", metadata: md, @ \"END\""
  , "            \x7d,"
  , "            updated_at = \x27ASSERT\x27,"
  , "            metadata = concat(md, $metadata),"
  , ""
  , "        :put sessions \x7b"
  , "            " ++ all_fields d ++ ", metadata, updated_at"
  , "        \x7d"
  , ""
  , "        :returning"
  , "    " ]

/-- The compiled mutation statement, as one string. -/
def update_query (d : PyDict) : String :=
  String.intercalate ("\n") (update_query_lines d)

/-- Modelled from the spec: `verify_developer_id_query` (from
`agents_api.models.utils`, absent from src/) — the compiled actor-existence
check, matching the developer row and failing the transaction on zero rows. -/
def verify_developer_id_query (developer_id : String) : String :=
  "?[developer_id] := *developers\x7bdeveloper_id\x7d, developer_id = to_uuid(\x27"
    ++ developer_id ++ "\x27) :assert some"

/-- Modelled from the spec: `verify_developer_owns_resource_query` (from
`agents_api.models.utils`, absent from src/) — the compiled ownership check for
the named resource kind, failing the transaction on zero rows. -/
def verify_developer_owns_resource_query
    (developer_id resource_kind resource_id : String) : String :=
  "?[] := *" ++ resource_kind ++ "\x7bdeveloper_id, " ++ resource_kind
    ++ "_id\x7d, developer_id = to_uuid(\x27" ++ developer_id
    ++ "\x27), " ++ resource_kind ++ "_id = to_uuid(\x27" ++ resource_id
    ++ "\x27) :assert some"

/-- The body of `patch_session`: compiles the patch payload `data` for session
`session_id` of developer `developer_id` into the ordered statement list and the
bound-parameter dict (UUIDs are modelled as their string form, as passed by
`str(...)` in the source). -/
def patch_session (session_id developer_id : String) (data : PyDict) :
    List String × PyDict :=
  ( [ verify_developer_id_query developer_id
    , verify_developer_owns_resource_query developer_id ("sessions") session_id
    , update_query data ]
  , [ ("session_update_vals", Val.vlist ((session_update_vals data).map Val.vlist))
    , ("session_id", Val.vstr session_id)
    , ("developer_id", Val.vstr developer_id)
    , ("metadata", Val.vobj (metadataOf data)) ] )

/-- Modelled from the spec: the store's `concat` builtin applied to two metadata
maps — associative union where a key present in both maps takes the value from
the second (new) argument, keys only in the first are preserved, keys only in
the second are added. -/
def concat (old new : List (String × Val)) : List (String × Val) :=
  old.filter (fun p => decide (p.1 ∉ dictKeys new)) ++ new

/-- Python dict assignment `d[k] = v`: overwrite in place when the key exists
(keeping its position), otherwise append the new entry at the end. -/
def dict_set (d : PyDict) (k : String) (v : Val) : PyDict :=
  if k ∈ dictKeys d then d.map (fun p => if p.1 = k then (p.1, v) else p)
  else d ++ [(k, v)]

/-- The `transform` lambda of the `wrap_in_class` decoration:
`lambda d: \x7b"id": d["session_id"], "updated_at": d.pop("updated_at")[0],
"jobs": [], **d\x7d`. The `pop` removes `updated_at` from `d` before `**d`
splices the remaining entries, each insertion following Python dict-literal
semantics (`dict_set`). `none` models the Python exception raised when the row
lacks `session_id`, or lacks `updated_at`, or its `updated_at` value is not a
nonempty sequence. -/
def transform (d : PyDict) : Option PyDict :=
  match alookup ("session_id") d, alookup ("updated_at") d with
  | some sid, some (Val.vlist (u :: _)) =>
    some (((d.filter (fun p => decide (p.1 ≠ "updated_at"))).foldl
            (fun acc p => dict_set acc p.1 p.2)
            [("id", sid), ("updated_at", u), ("jobs", Val.vlist [])]))
  | _, _ => none

/-- Exception kinds that can cross the `patch_session` boundary. -/
inductive PyError where
  | queryException
  | validationError
  | typeError
  | other (name : String)
deriving DecidableEq

/-- Errors surfaced to the caller after translation. -/
inductive ApiError where
  | httpException (status : Nat)
  | untranslated (e : PyError)
deriving DecidableEq

/-- The exception-mapping dict passed to `rewrap_exceptions` in the source:
`QueryException`, `ValidationError` and `TypeError` each map to
`HTTPException(status_code=400)`. -/
def exception_mapping : PyError → Option ApiError
  | PyError.queryException => some (ApiError.httpException 400)
  | PyError.validationError => some (ApiError.httpException 400)
  | PyError.typeError => some (ApiError.httpException 400)
  | _ => none

/-- Modelled from the spec: `rewrap_exceptions` (from `agents_api.models.utils`,
absent from src/) translates a raised exception through the mapping dict and
re-raises the translated error, propagates unmapped exceptions unchanged, and
passes successful results through — nothing is retried or swallowed. -/
def rewrap {α : Type} (result : Except PyError α) : Except ApiError α :=
  match result with
  | Except.ok a => Except.ok a
  | Except.error e =>
    match exception_mapping e with
    | some err => Except.error err
    | none => Except.error (ApiError.untranslated e)

/-- Modelled from the spec: the updatable fields of the patch request payload
(`PatchSessionRequest` of `agents_api.autogen.openapi_model`, absent from src/):
the `situation` and `summary` fields and the structured `metadata` map. -/
def patchable_fields : List String := ["situation", "summary", "metadata"]

theorem dictKeys_nil : dictKeys [] = [] := rfl

theorem dictKeys_cons (p : String × Val) (t : PyDict) :
    dictKeys (p :: t) = p.1 :: dictKeys t := rfl

theorem dictKeys_append (l₁ l₂ : PyDict) :
    dictKeys (l₁ ++ l₂) = dictKeys l₁ ++ dictKeys l₂ := by
  simp [dictKeys]

theorem alookup_isSome_iff (k : String) (l : PyDict) :
    (alookup k l).isSome = true ↔ k ∈ dictKeys l := by
  induction l with
  | nil => simp [alookup, dictKeys_nil]
  | cons p t ih =>
    by_cases h : p.1 = k
    · simp [alookup, dictKeys_cons, h]
    · have hne : ¬ k = p.1 := fun hk => h hk.symm
      simp [alookup, dictKeys_cons, h, hne, ih]

theorem alookup_eq_none_iff (k : String) (l : PyDict) :
    alookup k l = none ↔ k ∉ dictKeys l := by
  rw [← alookup_isSome_iff]
  cases alookup k l <;> simp

theorem alookup_append (k : String) (l₁ l₂ : PyDict) :
    alookup k (l₁ ++ l₂) =
      match alookup k l₁ with
      | some v => some v
      | none => alookup k l₂ := by
  induction l₁ with
  | nil => simp [alookup]
  | cons p t ih => by_cases h : p.1 = k <;> simp [alookup, h, ih]

theorem alookup_filter_true (k : String) (l : PyDict) (f : String × Val → Bool)
    (h : ∀ v, f (k, v) = true) :
    alookup k (l.filter f) = alookup k l := by
  induction l with
  | nil => rfl
  | cons q t ih =>
    rcases q with ⟨a, b⟩
    by_cases ha : a = k
    · subst ha
      simp [List.filter_cons, h b, alookup]
    · rw [List.filter_cons]
      by_cases hf : f (a, b) = true <;>
        simp [hf, alookup, ha, ih]

theorem alookup_filter_false (k : String) (l : PyDict) (f : String × Val → Bool)
    (h : ∀ v, f (k, v) = false) :
    alookup k (l.filter f) = none := by
  induction l with
  | nil => rfl
  | cons q t ih =>
    rcases q with ⟨a, b⟩
    by_cases ha : a = k
    · subst ha
      simp [List.filter_cons, h b, ih]
    · rw [List.filter_cons]
      by_cases hf : f (a, b) = true <;>
        simp [hf, alookup, ha, ih]

theorem dictKeys_filter_key (g : String → Bool) (l : PyDict) :
    dictKeys (l.filter (fun p => g p.1)) = (dictKeys l).filter g := by
  induction l with
  | nil => rfl
  | cons q t ih =>
    rw [List.filter_cons]
    by_cases hg : g q.1 = true <;> simp [dictKeys, hg, List.filter_cons, ih] <;>
      exact ih

theorem mem_dictKeys_filter (k : String) (l : PyDict) (f : String × Val → Bool) :
    k ∈ dictKeys (l.filter f) ↔ ∃ v, (k, v) ∈ l ∧ f (k, v) = true := by
  induction l with
  | nil => simp [dictKeys_nil]
  | cons q t ih =>
    rcases q with ⟨a, b⟩
    rw [List.filter_cons]
    by_cases hf : f (a, b) = true
    · rw [if_pos hf, dictKeys_cons]
      constructor
      · intro hk
        rcases List.mem_cons.mp hk with hk | hk
        · subst hk
          exact ⟨b, List.mem_cons_self _ _, hf⟩
        · rcases ih.mp hk with ⟨v, hv, hfv⟩
          exact ⟨v, List.mem_cons_of_mem _ hv, hfv⟩
      · rintro ⟨v, hv, hfv⟩
        rcases List.mem_cons.mp hv with hv | hv
        · exact List.mem_cons.mpr (Or.inl (congrArg Prod.fst hv))
        · exact List.mem_cons.mpr (Or.inr (ih.mpr ⟨v, hv, hfv⟩))
    · rw [if_neg hf]
      constructor
      · intro hk
        rcases ih.mp hk with ⟨v, hv, hfv⟩
        exact ⟨v, List.mem_cons_of_mem _ hv, hfv⟩
      · rintro ⟨v, hv, hfv⟩
        rcases List.mem_cons.mp hv with hv | hv
        · exact absurd (hv ▸ hfv) hf
        · exact ih.mpr ⟨v, hv, hfv⟩

theorem alookup_map_overwrite (k : String) (v : Val) (l : PyDict) :
    alookup k (l.map (fun p => if p.1 = k then (p.1, v) else p)) =
      (alookup k l).map (fun _ => v) := by
  induction l with
  | nil => rfl
  | cons q t ih =>
    by_cases h : q.1 = k <;> simp [alookup, h, ih]

theorem alookup_dict_set_self (d : PyDict) (k : String) (v : Val) :
    alookup k (dict_set d k v) = some v := by
  unfold dict_set
  by_cases hm : k ∈ dictKeys d
  · rw [if_pos hm, alookup_map_overwrite]
    rcases (alookup_isSome_iff k d).mpr hm |> Option.isSome_iff_exists.mp with ⟨w, hw⟩
    simp [hw]
  · rw [if_neg hm, alookup_append]
    rw [(alookup_eq_none_iff k d).mpr hm]
    simp [alookup]

theorem alookup_map_overwrite_ne (k k₀ : String) (v : Val) (l : PyDict)
    (h : k₀ ≠ k) :
    alookup k₀ (l.map (fun p => if p.1 = k then (p.1, v) else p)) =
      alookup k₀ l := by
  induction l with
  | nil => rfl
  | cons q t ih =>
    by_cases hqk : q.1 = k
    · have hk₀ : ¬ k = k₀ := fun hh => h hh.symm
      have hq : ¬ q.1 = k₀ := by rw [hqk]; exact hk₀
      simp [alookup, hqk, hq, hk₀, ih]
    · by_cases hq : q.1 = k₀ <;> simp [alookup, hqk, hq, h, ih]

theorem alookup_dict_set_ne (d : PyDict) (k k₀ : String) (v : Val) (h : k₀ ≠ k) :
    alookup k₀ (dict_set d k v) = alookup k₀ d := by
  unfold dict_set
  by_cases hm : k ∈ dictKeys d
  · rw [if_pos hm]
    exact alookup_map_overwrite_ne k k₀ v d h
  · rw [if_neg hm, alookup_append]
    have hkk : ¬ k = k₀ := fun hh => h hh.symm
    cases hc : alookup k₀ d with
    | some w => simp
    | none => simp [alookup, hkk]

theorem alookup_foldl_not_mem (rest : PyDict) (init : PyDict) (k : String)
    (h : k ∉ dictKeys rest) :
    alookup k (rest.foldl (fun acc p => dict_set acc p.1 p.2) init) =
      alookup k init := by
  induction rest generalizing init with
  | nil => rfl
  | cons q t ih =>
    rw [dictKeys_cons] at h
    have h1 : k ≠ q.1 := fun hh => h (hh ▸ List.mem_cons_self _ _)
    have h2 : k ∉ dictKeys t := fun hh => h (List.mem_cons_of_mem _ hh)
    rw [List.foldl_cons, ih _ h2, alookup_dict_set_ne _ _ _ _ h1]

theorem alookup_foldl_mem (rest : PyDict) (k : String) :
    ∀ init : PyDict, (dictKeys rest).Nodup → k ∈ dictKeys rest →
      alookup k (rest.foldl (fun acc p => dict_set acc p.1 p.2) init) =
        alookup k rest := by
  induction rest with
  | nil => intro _ _ h; cases h
  | cons q t ih =>
    intro init hnd h
    rw [dictKeys_cons] at h hnd
    rw [List.foldl_cons]
    by_cases hk : k = q.1
    · have hnt : k ∉ dictKeys t := by
        rw [hk]; exact (List.nodup_cons.mp hnd).1
      rw [alookup_foldl_not_mem _ _ _ hnt, hk, alookup_dict_set_self]
      simp [alookup]
    · have hkt : k ∈ dictKeys t := by
        rcases List.mem_cons.mp h with h1 | h1
        · exact absurd h1 hk
        · exact h1
      rw [ih _ (List.nodup_cons.mp hnd).2 hkt]
      have hqk : ¬ q.1 = k := fun hh => hk hh.symm
      simp [alookup, hqk]

theorem dictKeys_transform_filter (d : PyDict) :
    dictKeys (d.filter (fun p => decide (p.1 ≠ "updated_at"))) =
      (dictKeys d).filter (fun a => decide (a ≠ "updated_at")) :=
  dictKeys_filter_key (fun a => decide (a ≠ "updated_at")) d

/-- Claim C7: the projection transform renames `session_id` into `id`, unwraps
`updated_at` from its one-element sequence, attaches an empty `jobs` list, and
merges every remaining returned column verbatim. -/
theorem transform_projection (d : PyDict) (sid u : Val)
    (hnd : (dictKeys d).Nodup)
    (hid : "id" ∉ dictKeys d) (hjobs : "jobs" ∉ dictKeys d)
    (hsid : alookup ("session_id") d = some sid)
    (hupd : alookup ("updated_at") d = some (Val.vlist [u])) :
    ∃ out, transform d = some out ∧
      alookup ("id") out = some sid ∧
      alookup ("updated_at") out = some u ∧
      alookup ("jobs") out = some (Val.vlist []) ∧
      ∀ k, k ≠ "id" → k ≠ "updated_at" → k ≠ "jobs" →
        alookup k out = alookup k d := by
  have hkeys := dictKeys_transform_filter d
  have hndr : (dictKeys (d.filter (fun p => decide (p.1 ≠ "updated_at")))).Nodup := by
    rw [hkeys]; exact hnd.filter _
  have h_ua : "updated_at" ∉
      dictKeys (d.filter (fun p => decide (p.1 ≠ "updated_at"))) := by
    rw [hkeys]; simp
  have h_id : "id" ∉
      dictKeys (d.filter (fun p => decide (p.1 ≠ "updated_at"))) := by
    rw [hkeys]; intro hmem; exact hid (List.mem_of_mem_filter hmem)
  have h_jobs : "jobs" ∉
      dictKeys (d.filter (fun p => decide (p.1 ≠ "updated_at"))) := by
    rw [hkeys]; intro hmem; exact hjobs (List.mem_of_mem_filter hmem)
  refine ⟨_, by rw [transform, hsid, hupd], ?_, ?_, ?_, ?_⟩
  · rw [alookup_foldl_not_mem _ _ _ h_id]
    rfl
  · rw [alookup_foldl_not_mem _ _ _ h_ua]
    rfl
  · rw [alookup_foldl_not_mem _ _ _ h_jobs]
    rfl
  · intro k h1 h2 h3
    by_cases hk : k ∈ dictKeys (d.filter (fun p => decide (p.1 ≠ "updated_at")))
    · rw [alookup_foldl_mem _ _ _ hndr hk]
      exact alookup_filter_true k d _ (fun v => by simp [h2])
    · rw [alookup_foldl_not_mem _ _ _ hk]
      have n1 : ¬ ("id" = k) := fun hh => h1 hh.symm
      have n2 : ¬ ("updated_at" = k) := fun hh => h2 hh.symm
      have n3 : ¬ ("jobs" = k) := fun hh => h3 hh.symm
      have hd : k ∉ dictKeys d := by
        intro hmem
        exact hk (by rw [hkeys]; exact List.mem_filter.mpr ⟨hmem, by simp [h2]⟩)
      rw [(alookup_eq_none_iff k d).mpr hd]
      simp [alookup, n1, n2, n3]

/-- Witness for C7 at a concrete store row. -/
theorem transform_projection_witness :
    ∃ out,
      transform
        [ ("session_id", Val.vstr "sess-1"), ("updated_at", Val.vlist [Val.vstr "t0"])
        , ("situation", Val.vstr "hello"), ("metadata", Val.vobj []) ] = some out ∧
      alookup ("id") out = some (Val.vstr "sess-1") ∧
      alookup ("updated_at") out = some (Val.vstr "t0") ∧
      alookup ("jobs") out = some (Val.vlist []) ∧
      ∀ k, k ≠ "id" → k ≠ "updated_at" → k ≠ "jobs" →
        alookup k out =
          alookup k
            [ ("session_id", Val.vstr "sess-1"), ("updated_at", Val.vlist [Val.vstr "t0"])
            , ("situation", Val.vstr "hello"), ("metadata", Val.vobj []) ] :=
  transform_projection _ (Val.vstr "sess-1") (Val.vstr "t0")
    (by decide) (by decide) (by decide) rfl rfl

/-- Claim C10: the projection keeps the original `session_id` key alongside the
new `id` key, with equal values; only `updated_at` is removed before the
remaining columns are merged in. -/
theorem transform_keeps_session_id (d : PyDict) (sid u : Val) (us : List Val)
    (hnd : (dictKeys d).Nodup) (hid : "id" ∉ dictKeys d)
    (hsid : alookup ("session_id") d = some sid)
    (hupd : alookup ("updated_at") d = some (Val.vlist (u :: us))) :
    ∃ out, transform d = some out ∧
      alookup ("id") out = some sid ∧
      alookup ("session_id") out = some sid ∧
      ∀ k ∈ dictKeys d, k ≠ "updated_at" → k ∈ dictKeys out := by
  have hkeys := dictKeys_transform_filter d
  have hndr : (dictKeys (d.filter (fun p => decide (p.1 ≠ "updated_at")))).Nodup := by
    rw [hkeys]; exact hnd.filter _
  have h_id : "id" ∉
      dictKeys (d.filter (fun p => decide (p.1 ≠ "updated_at"))) := by
    rw [hkeys]; intro hmem; exact hid (List.mem_of_mem_filter hmem)
  have hmem_rest : ∀ k, k ∈ dictKeys d → k ≠ "updated_at" →
      k ∈ dictKeys (d.filter (fun p => decide (p.1 ≠ "updated_at"))) := by
    intro k hmem hne
    rw [hkeys]
    exact List.mem_filter.mpr ⟨hmem, by simp [hne]⟩
  have hsid_mem : "session_id" ∈ dictKeys d :=
    (alookup_isSome_iff _ d).mp (by rw [hsid]; rfl)
  refine ⟨_, by rw [transform, hsid, hupd], ?_, ?_, ?_⟩
  · rw [alookup_foldl_not_mem _ _ _ h_id]
    rfl
  · rw [alookup_foldl_mem _ _ _ hndr (hmem_rest _ hsid_mem (by decide))]
    rw [alookup_filter_true _ _ _ (fun v => by simp)]
    exact hsid
  · intro k hmem hne
    have hk := hmem_rest k hmem hne
    rw [← alookup_isSome_iff]
    rw [alookup_foldl_mem _ _ _ hndr hk]
    rw [alookup_filter_true _ _ _ (fun v => by simp [hne])]
    exact (alookup_isSome_iff k d).mpr hmem

/-- Witness for C10 at a concrete store row. -/
theorem transform_keeps_session_id_witness :
    ∃ out,
      transform
        [ ("session_id", Val.vstr "sess-2"), ("updated_at", Val.vlist [Val.vint 7])
        , ("summary", Val.vstr "sum") ] = some out ∧
      alookup ("id") out = some (Val.vstr "sess-2") ∧
      alookup ("session_id") out = some (Val.vstr "sess-2") ∧
      ∀ k ∈ dictKeys
        [ ("session_id", Val.vstr "sess-2"), ("updated_at", Val.vlist [Val.vint 7])
        , ("summary", Val.vstr "sum") ], k ≠ "updated_at" → k ∈ dictKeys out :=
  transform_keeps_session_id _ (Val.vstr "sess-2") (Val.vint 7) []
    (by decide) (by decide) rfl rfl

theorem concat_line_mem (d : PyDict) :
    "            metadata = concat(md, $metadata)," ∈ update_query_lines d := by
  simp [update_query_lines]

theorem assert_line_mem (d : PyDict) :
    "            updated_at = \x27ASSERT\x27," ∈ update_query_lines d := by
  simp [update_query_lines]

/-- Claim C1: the stored metadata is the associative union of the existing map
and the patch map — a key in both takes the patch value, keys only in the
existing map are preserved, keys only in the patch are added; in particular
union of a-to-1 with b-to-2 keeps both entries and union of a-to-1 with a-to-2
yields a-to-2. The compiled statement computes it as `concat(md, $metadata)`
with `md` the existing metadata. -/
theorem metadata_concat_union_law :
    (∀ old new : List (String × Val), ∀ k : String,
        alookup k (concat old new) =
          if k ∈ dictKeys new then alookup k new else alookup k old) ∧
    concat [("a", Val.vint 1)] [("b", Val.vint 2)]
      = [("a", Val.vint 1), ("b", Val.vint 2)] ∧
    concat [("a", Val.vint 1)] [("a", Val.vint 2)] = [("a", Val.vint 2)] ∧
    ∀ data : PyDict,
      "            metadata = concat(md, $metadata)," ∈ update_query_lines data := by
  refine ⟨?_, rfl, rfl, concat_line_mem⟩
  intro old new k
  unfold concat
  rw [alookup_append]
  by_cases hk : k ∈ dictKeys new
  · rw [alookup_filter_false k old _ (fun v => by simp [hk])]
    simp [hk]
  · rw [alookup_filter_true k old _ (fun v => by simp [hk]), if_neg hk,
      (alookup_eq_none_iff k new).mpr hk]
    cases alookup k old <;> rfl

/-- Claim C5: the compiled statement list places the actor-existence check
first, the ownership check second and the mutation statement last, for every
invocation. -/
theorem queries_order_auth_before_mutation
    (session_id developer_id : String) (data : PyDict) :
    (patch_session session_id developer_id data).1 =
      [ verify_developer_id_query developer_id
      , verify_developer_owns_resource_query developer_id ("sessions") session_id
      , update_query data ] := rfl

/-- Claim C6: a store rejection (`QueryException`), an invalid payload shape
(`ValidationError`) and a type-coercion failure (`TypeError`) are each surfaced
as HTTP 400; successes pass through unchanged and every error is surfaced as
exactly one error — nothing is retried or swallowed. -/
theorem exceptions_translated_to_invalid_request :
    rewrap (Except.error PyError.queryException : Except PyError Val) =
      Except.error (ApiError.httpException 400) ∧
    rewrap (Except.error PyError.validationError : Except PyError Val) =
      Except.error (ApiError.httpException 400) ∧
    rewrap (Except.error PyError.typeError : Except PyError Val) =
      Except.error (ApiError.httpException 400) ∧
    (∀ a : Val, rewrap (Except.ok a : Except PyError Val) = Except.ok a) ∧
    (∀ e : PyError, ∃ err : ApiError,
      rewrap (Except.error e : Except PyError Val) = Except.error err) := by
  refine ⟨rfl, rfl, rfl, fun a => rfl, fun e => ?_⟩
  cases e <;> exact ⟨_, rfl⟩

theorem alookup_middle_ne (k : String) (l₁ l₂ : PyDict) (f : String) (v : Val)
    (h : ¬ f = k) :
    alookup k (l₁ ++ (f, v) :: l₂) = alookup k (l₁ ++ l₂) := by
  rw [alookup_append, alookup_append]
  cases alookup k l₁ <;> simp [alookup, h]

theorem update_data_non_null_erase (l₁ l₂ : PyDict) (f : String) :
    update_data_non_null (l₁ ++ (f, Val.vnull) :: l₂) =
      update_data_non_null (l₁ ++ l₂) := by
  unfold update_data_non_null update_data_after_pop
  by_cases hf : (f : String) = "metadata" <;>
    simp [List.filter_append, List.filter_cons, hf, Val.isNull]

theorem metadataOf_erase (l₁ l₂ : PyDict) (f : String)
    (h : f ∉ dictKeys (l₁ ++ l₂)) :
    metadataOf (l₁ ++ (f, Val.vnull) :: l₂) = metadataOf (l₁ ++ l₂) := by
  unfold metadataOf
  by_cases hf : (f : String) = "metadata"
  · subst hf
    have h1 : alookup ("metadata") (l₁ ++ l₂) = none :=
      (alookup_eq_none_iff _ _).mpr h
    have h2 : alookup ("metadata") l₁ = none := by
      rw [alookup_eq_none_iff]
      intro hm
      exact h (by rw [dictKeys_append]; exact List.mem_append.mpr (Or.inl hm))
    rw [alookup_append, h2, h1]
    simp [alookup]
  · rw [alookup_middle_ne _ _ _ _ _ hf]

/-- Claim C3: a payload field explicitly set to null compiles exactly like the
same payload with the field absent — identical ordered statements and identical
bound parameters. -/
theorem null_field_noop (session_id developer_id : String)
    (l₁ l₂ : PyDict) (f : String) (h : f ∉ dictKeys (l₁ ++ l₂)) :
    patch_session session_id developer_id (l₁ ++ (f, Val.vnull) :: l₂) =
      patch_session session_id developer_id (l₁ ++ l₂) := by
  have hA := update_data_non_null_erase l₁ l₂ f
  have hB := metadataOf_erase l₁ l₂ f h
  have hC : all_fields_lst (l₁ ++ (f, Val.vnull) :: l₂) =
      all_fields_lst (l₁ ++ l₂) := by
    unfold all_fields_lst session_update_cols_lst
    rw [hA]
  unfold patch_session update_query update_query_lines session_update_cols
    session_update_vals all_fields rest_fields rest_fields_lst
  rw [hA, hB, hC]

/-- Witness for C3: a payload with `summary` explicitly null compiles exactly
like the payload without `summary`. -/
theorem null_field_noop_witness :
    patch_session ("11111111-1111-1111-1111-111111111111")
        ("22222222-2222-2222-2222-222222222222")
        [("situation", Val.vstr "s"), ("summary", Val.vnull)] =
      patch_session ("11111111-1111-1111-1111-111111111111")
        ("22222222-2222-2222-2222-222222222222")
        [("situation", Val.vstr "s")] :=
  null_field_noop _ _ [("situation", Val.vstr "s")] [] ("summary") (by decide)

theorem mem_supplied_sub (k : String) (d : PyDict)
    (h : k ∈ dictKeys (update_data_non_null d)) : k ∈ dictKeys d := by
  unfold update_data_non_null at h
  rcases (mem_dictKeys_filter k _ _).mp h with ⟨v, hv, _⟩
  have hv2 : (k, v) ∈ d := List.mem_of_mem_filter hv
  exact List.mem_map_of_mem Prod.fst hv2

theorem metadata_not_in_supplied (d : PyDict) :
    "metadata" ∉ dictKeys (update_data_non_null d) := by
  intro h
  unfold update_data_non_null at h
  rcases (mem_dictKeys_filter _ _ _).mp h with ⟨v, hv, _⟩
  have hp := List.of_mem_filter hv
  simp at hp

/-- Claim C8: the compiled statement assigns `updated_at` with the store-side
validity marker; `updated_at` is never among the bound input columns, and the
bound parameters are exactly the four fixed keys, none of them a client
timestamp for that column. -/
theorem updated_at_store_assigned (session_id developer_id : String)
    (data : PyDict) (hsub : ∀ k ∈ dictKeys data, k ∈ patchable_fields) :
    ("            updated_at = \x27ASSERT\x27," ∈ update_query_lines data) ∧
    "updated_at" ∉ session_update_cols_lst data ∧
    dictKeys (patch_session session_id developer_id data).2 =
      ["session_update_vals", "session_id", "developer_id", "metadata"] := by
  refine ⟨assert_line_mem data, ?_, rfl⟩
  unfold session_update_cols_lst py_split_join
  by_cases he : dictKeys (update_data_non_null data) = []
  · rw [if_pos he]; simp
  · rw [if_neg he]
    intro hmem
    have hd := mem_supplied_sub _ _ hmem
    have hp := hsub _ hd
    simp [patchable_fields] at hp

/-- Witness for C8 at a concrete payload supplying `situation`. -/
theorem updated_at_store_assigned_witness :
    ("            updated_at = \x27ASSERT\x27,"
        ∈ update_query_lines [("situation", Val.vstr "x")]) ∧
    "updated_at" ∉ session_update_cols_lst [("situation", Val.vstr "x")] ∧
    dictKeys (patch_session ("S") ("D") [("situation", Val.vstr "x")]).2 =
      ["session_update_vals", "session_id", "developer_id", "metadata"] :=
  updated_at_store_assigned ("S") ("D") [("situation", Val.vstr "x")] (by decide)

/-- Claim C9: the metadata field is removed from the payload before the
overwrite column set is computed and is never an overwritten column; it reaches
the store only as the separate `$metadata` bound parameter consumed by the
merge expression, and it defaults to the empty map when absent or null. -/
theorem metadata_separate_param (session_id developer_id : String)
    (data : PyDict) :
    "metadata" ∉ session_update_cols_lst data ∧
    alookup ("metadata") (patch_session session_id developer_id data).2 =
      some (Val.vobj (metadataOf data)) ∧
    ("            metadata = concat(md, $metadata)," ∈ update_query_lines data) ∧
    (alookup ("metadata") data = none → metadataOf data = []) ∧
    (alookup ("metadata") data = some Val.vnull → metadataOf data = []) := by
  refine ⟨?_, rfl, concat_line_mem data, ?_, ?_⟩
  · unfold session_update_cols_lst py_split_join
    by_cases he : dictKeys (update_data_non_null data) = []
    · rw [if_pos he]; simp
    · rw [if_neg he]; exact metadata_not_in_supplied data
  · intro h; simp [metadataOf, h]
  · intro h; simp [metadataOf, h]

/-- Witness for C9: a payload whose metadata is explicitly null is compiled
with no metadata overwrite column and the empty-map default. -/
theorem metadata_separate_param_witness :
    "metadata" ∉ session_update_cols_lst [("metadata", Val.vnull)] ∧
    metadataOf [("metadata", Val.vnull)] = [] :=
  ⟨(metadata_separate_param ("S") ("D") [("metadata", Val.vnull)]).1,
   (metadata_separate_param ("S") ("D") [("metadata", Val.vnull)]).2.2.2.2 rfl⟩

/-- Claim C2 (amended): for every payload drawn from the patchable fields that
supplies at least one non-null non-metadata field, the `:put` column set equals
the full schema field set, the overwritten and carried-forward partitions are
disjoint and jointly cover the `?[...]` head, and no schema column is omitted.
(At the degenerate empty supplied set the code instead injects an extra
empty-string column — see the counterexample.) -/
theorem put_columns_complete (data : PyDict)
    (hsub : ∀ k ∈ dictKeys data, k ∈ patchable_fields)
    (hne : dictKeys (update_data_non_null data) ≠ []) :
    (put_cols_lst data).toFinset = schema_put_fields.toFinset ∧
    (∀ k ∈ dictKeys (update_data_non_null data), k ∉ rest_fields_lst data) ∧
    (∀ k ∈ all_fields_lst data,
      k ∈ dictKeys (update_data_non_null data) ∨ k ∈ rest_fields_lst data) ∧
    (∀ k ∈ schema_put_fields, k ∈ put_cols_lst data) := by
  have hsup : ∀ k ∈ dictKeys (update_data_non_null data), k ∈ _fields := by
    intro k hk
    have hkm : k ≠ "metadata" := fun hh => metadata_not_in_supplied data (hh ▸ hk)
    have hp := hsub k (mem_supplied_sub k data hk)
    simp [patchable_fields] at hp
    rcases hp with h1 | h1 | h1
    · subst h1; simp [_fields]
    · subst h1; simp [_fields]
    · exact absurd h1 hkm
  have hcols : session_update_cols_lst data =
      dictKeys (update_data_non_null data) := by
    unfold session_update_cols_lst py_split_join
    rw [if_neg hne]
  refine ⟨?_, ?_, ?_, ?_⟩
  · ext k
    simp only [put_cols_lst, schema_put_fields, all_fields_lst, hcols,
      List.mem_toFinset, List.mem_append, List.mem_dedup]
    constructor
    · rintro ((h | h) | h)
      · exact Or.inl (hsup k h)
      · exact Or.inl h
      · exact Or.inr h
    · rintro (h | h)
      · exact Or.inl (Or.inr h)
      · exact Or.inr h
  · intro k hk hmem
    unfold rest_fields_lst at hmem
    have hp := List.of_mem_filter (List.mem_dedup.mp hmem)
    simp at hp
    exact hp hk
  · intro k hk
    by_cases hks : k ∈ dictKeys (update_data_non_null data)
    · exact Or.inl hks
    · refine Or.inr ?_
      unfold rest_fields_lst
      exact List.mem_dedup.mpr (List.mem_filter.mpr ⟨hk, by simp [hks]⟩)
  · intro k hk
    unfold put_cols_lst all_fields_lst
    rcases List.mem_append.mp hk with h | h
    · exact List.mem_append.mpr (Or.inl (List.mem_dedup.mpr
        (List.mem_append.mpr (Or.inr h))))
    · exact List.mem_append.mpr (Or.inr h)

/-- Witness for C2 at a payload supplying only `situation`. -/
theorem put_columns_complete_witness :
    (put_cols_lst [("situation", Val.vstr "x")]).toFinset =
      schema_put_fields.toFinset ∧
    (∀ k ∈ dictKeys (update_data_non_null [("situation", Val.vstr "x")]),
      k ∉ rest_fields_lst [("situation", Val.vstr "x")]) ∧
    (∀ k ∈ all_fields_lst [("situation", Val.vstr "x")],
      k ∈ dictKeys (update_data_non_null [("situation", Val.vstr "x")]) ∨
        k ∈ rest_fields_lst [("situation", Val.vstr "x")]) ∧
    (∀ k ∈ schema_put_fields, k ∈ put_cols_lst [("situation", Val.vstr "x")]) :=
  put_columns_complete [("situation", Val.vstr "x")] (by decide) (by decide)

/-- Counterexample for C2 as stated: at the empty payload the `:put` column set
is not the schema field set — the code's `"".split(",")` injects an
empty-string column. -/
theorem put_columns_complete_cex :
    ¬ ((put_cols_lst []).toFinset = schema_put_fields.toFinset) := by decide

/-- Claim C4, evaluated at the failing input: at an empty patch payload (and
likewise at a metadata-only payload, whose supplied column set is also empty)
the compiled statement contains an empty-string column in the `?[...]` head,
the stored-relation pattern and the `:put` column list, so the emitted
statement is not a valid touch update — the store cannot accept a column named
by the empty string, which is not a schema column. -/
theorem empty_patch_malformed_columns :
    session_update_cols_lst [] = [""] ∧
    "" ∈ all_fields_lst [] ∧
    "" ∈ rest_fields_lst [] ∧
    "" ∉ schema_put_fields ∧
    all_fields [] = ", situation, summary, created_at, session_id, developer_id" ∧
    "" ∈ all_fields_lst [("metadata", Val.vobj [("tag", Val.vstr "x")])] := by
  decide
